import Mathlib

/-!
Verification of the analysis aggregation and reporting pipeline of the
R.A.G-AI-Code-Generator repository (`src/code_analysis/analyzer.py` and
`src/utils/helpers.py`).

The pipeline fans out to three external tools (pylint, bandit, black) and a
structural AST pass, normalizes their outputs, derives improvement
suggestions, and renders a text report.  The external tools themselves are
collaborators outside the repository; they are abstracted here as oracle
functions (a lint run, a security scan, a formatter), while everything the
repository's own code does with their results is embedded faithfully.
-/

namespace RagCode

/-- Severity kind of one pylint diagnostic (the reporter's `type` field). -/
inductive SeverityKind where
  | error
  | warning
  | convention
  | refactor
  | info
deriving DecidableEq

/-- The string pylint uses for each severity kind, as it appears in the
`type` field of a reported message. -/
def SeverityKind.str : SeverityKind → String
  | .error => "error"
  | .warning => "warning"
  | .convention => "convention"
  | .refactor => "refactor"
  | .info => "info"

/-- One pylint message as consumed by the repository code: the `type`,
`message` and `line` fields of the JSON-reported diagnostic. -/
structure LintMsg where
  type : SeverityKind
  message : String
  line : Nat
deriving DecidableEq

/-- Severity / confidence level of a bandit issue. -/
inductive SecLevel where
  | LOW
  | MEDIUM
  | HIGH
deriving DecidableEq

/-- The string bandit uses for a level (`issue.severity` / `issue.confidence`). -/
def SecLevel.str : SecLevel → String
  | .LOW => "LOW"
  | .MEDIUM => "MEDIUM"
  | .HIGH => "HIGH"

/-- One normalized bandit record, exactly the dict built in
`CodeAnalyzer._run_bandit`: issue text, severity, confidence, line, column. -/
structure SecIssue where
  issue : String
  severity : SecLevel
  confidence : SecLevel
  line : Nat
  col : Nat
deriving DecidableEq

/-- The dict returned by `CodeAnalyzer._run_black`: on success the keys
`needs_formatting` and `formatted_code`, on failure the keys `error` and
`needs_formatting` (absent keys are `none`). -/
structure BlackVerdict where
  needs_formatting : Bool
  formatted_code : Option String
  error : Option String
deriving DecidableEq

/-- Shallow embedding of `CodeAnalyzer._run_black`.  The external formatter
`black.format_str` is abstracted as the oracle `fmt`: `.ok s` means the call
returned the canonical text `s`, `.error e` means it raised an exception
whose string representation is `e` (the `try`/`except` in the source catches
every exception and stores `str(e)`). -/
def run_black (fmt : String → Except String String) (code : String) : BlackVerdict :=
  match fmt code with
  | .ok formatted_code =>
      { needs_formatting := formatted_code != code,
        formatted_code := some formatted_code,
        error := none }
  | .error e =>
      { needs_formatting := true,
        formatted_code := none,
        error := some e }

/-- The success payload of a formatter run, if any. -/
def okPart (r : Except String String) : Option String :=
  match r with
  | .ok s => some s
  | .error _ => none

/-- The exception text of a formatter run, if any. -/
def errPart (r : Except String String) : Option String :=
  match r with
  | .ok _ => none
  | .error e => some e

/-- C5: for every input string, `_run_black` returns a verdict whose
`needs_formatting` is true iff the canonical formatted text differs from the
input or formatting raised, and exactly one of `formatted_code` / `error` is
populated: the formatted text on success, the exception's string
representation on failure. -/
theorem run_black_verdict_spec (fmt : String → Except String String) (code : String) :
    ((run_black fmt code).needs_formatting = true ↔ fmt code ≠ Except.ok code)
    ∧ (run_black fmt code).formatted_code = okPart (fmt code)
    ∧ (run_black fmt code).error = errPart (fmt code)
    ∧ (run_black fmt code).formatted_code.isSome = (run_black fmt code).error.isNone := by
  cases h : fmt code with
  | ok f =>
      refine ⟨?_, by simp [run_black, okPart, h], by simp [run_black, errPart, h],
        by simp [run_black, h]⟩
      simp [run_black, h, bne_iff_ne]
  | error e =>
      refine ⟨?_, by simp [run_black, okPart, h], by simp [run_black, errPart, h],
        by simp [run_black, h]⟩
      simp [run_black, h]

/-- Statement-level model of the Python abstract syntax tree, covering every
node kind `CodeAnalyzer` inspects (`Import`, `ImportFrom`, `FunctionDef`,
`ClassDef`, `If`, `Try`, `ExceptHandler`, `For`, `While`) plus an anonymous
compound statement (`Other`, e.g. `with`) and an anonymous simple statement
(`Pass`, e.g. `pass`, assignments, expression statements).  Expression
children are omitted: no node kind the analyzer inspects can occur in
expression position in Python, so they contribute nothing to any walk-based
collection.  `lineno` fields mirror the AST attribute of the same name. -/
inductive Py where
  | Import (lineno : Nat) (names : List String)
  | ImportFrom (lineno : Nat) (module : Option String) (names : List String)
  | FunctionDef (name : String) (args : List String) (lineno : Nat) (body : List Py)
  | ClassDef (name : String) (lineno : Nat) (body : List Py)
  | If (body : List Py) (orelse : List Py)
  | Try (body : List Py) (handlers : List Py) (orelse : List Py) (finalbody : List Py)
  | ExceptHandler (body : List Py)
  | For (body : List Py) (orelse : List Py)
  | While (body : List Py) (orelse : List Py)
  | Other (body : List Py)
  | Pass
  | Module (body : List Py)

mutual

/-- Size measure on one node, used for termination of the tree walks. -/
def Py.sz : Py → Nat
  | .Import _ _ => 2
  | .ImportFrom _ _ _ => 2
  | .FunctionDef _ _ _ b => 2 + szList b
  | .ClassDef _ _ b => 2 + szList b
  | .If b o => 2 + szList b + szList o
  | .Try b h o f => 2 + szList b + szList h + szList o + szList f
  | .ExceptHandler b => 2 + szList b
  | .For b o => 2 + szList b + szList o
  | .While b o => 2 + szList b + szList o
  | .Other b => 2 + szList b
  | .Pass => 2
  | .Module b => 2 + szList b

/-- Size measure on a list of nodes. -/
def szList : List Py → Nat
  | [] => 0
  | x :: xs => Py.sz x + szList xs

end

/-- The statement children of a node, in the field order of
`ast.iter_child_nodes` (body before orelse; body, handlers, orelse,
finalbody for `try`). -/
def children : Py → List Py
  | .Import _ _ => []
  | .ImportFrom _ _ _ => []
  | .FunctionDef _ _ _ b => b
  | .ClassDef _ _ b => b
  | .If b o => b ++ o
  | .Try b h o f => b ++ h ++ o ++ f
  | .ExceptHandler b => b
  | .For b o => b ++ o
  | .While b o => b ++ o
  | .Other b => b
  | .Pass => []
  | .Module b => b

theorem szList_append (l1 l2 : List Py) : szList (l1 ++ l2) = szList l1 + szList l2 := by
  induction l1 with
  | nil => simp [szList]
  | cons x xs ih => simp [szList, ih]; omega

theorem children_sz_lt (n : Py) : szList (children n) < Py.sz n := by
  cases n
  all_goals simp [children, Py.sz, szList_append, szList]
  all_goals omega

/-- Breadth-first traversal worker: `ast.walk` keeps a deque, pops the front
node, yields it, and extends the deque with its children. -/
def walkQueue : List Py → List Py
  | [] => []
  | n :: rest => n :: walkQueue (rest ++ children n)
termination_by q => szList q
decreasing_by
  simp only [szList_append, szList]
  have h := children_sz_lt x
  omega

/-- Shallow embedding of `ast.walk t`: all nodes of the tree in
breadth-first order, starting at the root. -/
def Py.walk (t : Py) : List Py := walkQueue [t]

/-- How a Python f-string renders `node.module`: the module name itself, or
the text `None` when the attribute is `None` (relative import with no
module, e.g. `from . import Y`). -/
def pyOptStr : Option String → String
  | some s => s
  | none => "None"

/-- The entries one node contributes to the `imports` list of
`CodeAnalyzer._analyze_ast`: a plain `import` extends the list with every
alias name, a `from`-import appends the single combined string built by an
f-string from the module attribute and the first alias name.  The Python
grammar guarantees a `from`-import has at least one alias (the source
indexes the first element of node.names), so
the empty-alias branch is unreachable on parser-produced trees. -/
def importEntries : Py → List String
  | .Import _ names => names
  | .ImportFrom _ m names =>
      match names with
      | n :: _ => [pyOptStr m ++ "." ++ n]
      | [] => []
  | _ => []

/-- The same entries paired with the line number of the contributing import
statement, used to state in which order relative to the source text the
entries are recorded. -/
def importEntriesL : Py → List (Nat × String)
  | .Import ln names => names.map (fun n => (ln, n))
  | .ImportFrom ln m names =>
      match names with
      | n :: _ => [(ln, pyOptStr m ++ "." ++ n)]
      | [] => []
  | _ => []

/-- One entry of the `functions` inventory: name, positional argument
names, line number. -/
structure FuncInfo where
  name : String
  args : List String
  lineno : Nat
deriving DecidableEq

/-- The `functions` entry a node contributes, if any. -/
def funcEntry : Py → Option FuncInfo
  | .FunctionDef name args lineno _ => some ⟨name, args, lineno⟩
  | _ => none

/-- One entry of the `classes` inventory: name, immediate method names,
line number. -/
structure ClassInfo where
  name : String
  methods : List String
  lineno : Nat
deriving DecidableEq

/-- The names of the immediate function definitions of a class body, the
comprehension over node.body the source uses. -/
def methodNames (body : List Py) : List String :=
  body.filterMap (fun n =>
    match n with
    | .FunctionDef name _ _ _ => some name
    | _ => none)

/-- The `classes` entry a node contributes, if any. -/
def classEntry : Py → Option ClassInfo
  | .ClassDef name lineno body => some ⟨name, methodNames body, lineno⟩
  | _ => none

/-- The counter dict of `CodeAnalyzer._calculate_complexity`. -/
structure Complexity where
  branches : Nat
  loops : Nat
  functions : Nat
  classes : Nat
deriving DecidableEq

/-- One step of the complexity loop: `If`/`Try`/`ExceptHandler` increment
`branches`, `For`/`While` increment `loops`, `FunctionDef` increments
`functions`, `ClassDef` increments `classes`; every other node is ignored. -/
def complexityStep (c : Complexity) : Py → Complexity
  | .If _ _ => { c with branches := c.branches + 1 }
  | .Try _ _ _ _ => { c with branches := c.branches + 1 }
  | .ExceptHandler _ => { c with branches := c.branches + 1 }
  | .For _ _ => { c with loops := c.loops + 1 }
  | .While _ _ => { c with loops := c.loops + 1 }
  | .FunctionDef _ _ _ _ => { c with functions := c.functions + 1 }
  | .ClassDef _ _ _ => { c with classes := c.classes + 1 }
  | _ => c

/-- Shallow embedding of `CodeAnalyzer._calculate_complexity`: fold the
counter update over `ast.walk(tree)` starting from all-zero counters. -/
def calculate_complexity (tree : Py) : Complexity :=
  tree.walk.foldl complexityStep ⟨0, 0, 0, 0⟩

/-- The dict returned by `CodeAnalyzer._analyze_ast`: on success the keys
`imports`/`functions`/`classes`/`complexity`, on a caught `SyntaxError` the
single key `error`. -/
inductive AstAnalysis where
  | success (imports : List String) (functions : List FuncInfo)
      (classes : List ClassInfo) (complexity : Complexity)
  | failure (error : String)
deriving DecidableEq

/-- Shallow embedding of `CodeAnalyzer._analyze_ast`.  `ast.parse` is
abstracted as the oracle `parse`: `.ok tree` is the parsed tree, `.error e`
a raised `SyntaxError` whose string representation is `e` — the `except
SyntaxError` branch of the source is the `.error` case of the match, so no
parse failure escapes this function.  The source's single loop appending to
three lists in walk order is embedded as three traversals of the same walk
sequence (the appends to distinct lists commute). -/
def analyze_ast (parse : String → Except String Py) (code : String) : AstAnalysis :=
  match parse code with
  | .ok tree =>
      .success (tree.walk.flatMap importEntries)
        (tree.walk.filterMap funcEntry)
        (tree.walk.filterMap classEntry)
        (calculate_complexity tree)
  | .error e => .failure ("Syntax error: " ++ e)

/-- The `StructuralSummary` view of the spec's data model over the dict the
code returns: the failure dict carries no structural keys, which the spec
reads as all collections empty, all counters zero, and `parse_error` set. -/
structure StructuralSummary where
  imports : List String
  functions : List FuncInfo
  classes : List ClassInfo
  complexity : Complexity
  parse_error : Option String
deriving DecidableEq

/-- Read an `_analyze_ast` result dict as a `StructuralSummary`. -/
def AstAnalysis.toSummary : AstAnalysis → StructuralSummary
  | .success i f c x => ⟨i, f, c, x, none⟩
  | .failure e => ⟨[], [], [], ⟨0, 0, 0, 0⟩, some e⟩

theorem walkQueue_childless (q : List Py) (h : ∀ n ∈ q, children n = []) :
    walkQueue q = q := by
  induction q with
  | nil => simp [walkQueue]
  | cons n rest ih =>
      have hn : children n = [] := h n (List.mem_cons_self n rest)
      have hr : ∀ m ∈ rest, children m = [] := fun m hm => h m (List.mem_cons_of_mem n hm)
      simp only [walkQueue, hn, List.append_nil]
      rw [ih hr]

theorem foldl_complexityStep_functions (l : List Py) (c : Complexity) :
    (l.foldl complexityStep c).functions = c.functions + (l.filterMap funcEntry).length := by
  induction l generalizing c with
  | nil => simp
  | cons n rest ih =>
      cases n
      all_goals simp [complexityStep, funcEntry, List.filterMap_cons, ih]
      all_goals omega

/-- C3: for every input string, `_analyze_ast` settles every parse failure
inside its own boundary: when the parser raises, the returned summary has
`parse_error` set to a message carrying the underlying error text, all
three inventories empty, and every complexity counter zero. -/
theorem analyze_ast_parse_failure_degrades (parse : String → Except String Py)
    (code e : String) (h : parse code = Except.error e) :
    (analyze_ast parse code).toSummary =
      { imports := [], functions := [], classes := [],
        complexity := ⟨0, 0, 0, 0⟩, parse_error := some ("Syntax error: " ++ e) } := by
  simp [analyze_ast, h, AstAnalysis.toSummary]

theorem analyze_ast_parse_failure_degrades_witness :
    (analyze_ast (fun _ => Except.error ("invalid syntax (<unknown>, line 1)"))
        "def f(:\n").toSummary =
      { imports := [], functions := [], classes := [],
        complexity := ⟨0, 0, 0, 0⟩,
        parse_error := some ("Syntax error: " ++ "invalid syntax (<unknown>, line 1)") } :=
  analyze_ast_parse_failure_degrades _ _ _ rfl

/-- C4: for every syntactically valid input, the structural summary has no
`parse_error` and its `functions` complexity counter equals the length of
the `functions` inventory collected during the same tree walk. -/
theorem analyze_ast_function_count (parse : String → Except String Py)
    (code : String) (tree : Py) (h : parse code = Except.ok tree) :
    (analyze_ast parse code).toSummary.parse_error = none
    ∧ (analyze_ast parse code).toSummary.complexity.functions =
        (analyze_ast parse code).toSummary.functions.length := by
  refine ⟨by simp [analyze_ast, h, AstAnalysis.toSummary], ?_⟩
  simp only [analyze_ast, h, AstAnalysis.toSummary, calculate_complexity]
  have hc := foldl_complexityStep_functions tree.walk ⟨0, 0, 0, 0⟩
  simpa using hc

theorem analyze_ast_function_count_witness :
    (analyze_ast
        (fun _ => Except.ok (Py.Module [Py.Import 1 ["os"],
          Py.FunctionDef ("f") ["a", "b"] 2 [Py.Pass]]))
        "import os\ndef f(a, b):\n    pass\n").toSummary.parse_error = none
    ∧ (analyze_ast
        (fun _ => Except.ok (Py.Module [Py.Import 1 ["os"],
          Py.FunctionDef ("f") ["a", "b"] 2 [Py.Pass]]))
        "import os\ndef f(a, b):\n    pass\n").toSummary.complexity.functions =
      (analyze_ast
        (fun _ => Except.ok (Py.Module [Py.Import 1 ["os"],
          Py.FunctionDef ("f") ["a", "b"] 2 [Py.Pass]]))
        "import os\ndef f(a, b):\n    pass\n").toSummary.functions.length :=
  analyze_ast_function_count _ _ _ rfl

/-- The tree of `def f():\n    import a\nimport b`: an import nested inside
a function definition, followed by a top-level import on a later line. -/
def nestedImportTree : Py :=
  Py.Module [Py.FunctionDef ("f") [] 1 [Py.Import 2 ["a"]], Py.Import 3 ["b"]]

/-- C8 (counterexample): the imports inventory is collected in breadth-first
walk order, not source order.  For `def f():\n    import a\nimport b` the
recorded entries are `b` (line 3) before `a` (line 2): the line numbers of
the recorded sequence are not monotone, so the inventory does not list
the import targets in source order. -/
theorem analyze_ast_imports_not_source_ordered :
    (analyze_ast (fun _ => Except.ok nestedImportTree)
        "def f():\n    import a\nimport b\n").toSummary.imports
      = (nestedImportTree.walk.flatMap importEntriesL).map Prod.snd
    ∧ nestedImportTree.walk.flatMap importEntriesL = [(3, "b"), (2, "a")]
    ∧ ¬ List.Chain' (fun p q : Nat × String => p.1 ≤ q.1) [(3, "b"), (2, "a")] := by
  refine ⟨?_, ?_, ?_⟩
  · simp [analyze_ast, AstAnalysis.toSummary, nestedImportTree, Py.walk, walkQueue,
      children, importEntries, importEntriesL]
  · simp [nestedImportTree, Py.walk, walkQueue, children, importEntriesL]
  · intro h
    have h1 := (List.chain'_cons.mp h).1
    simp at h1

/-- C8 (amended): for a module whose statements are all childless (no
nested compound statement), the imports inventory lists, statement by
statement in source order, every alias name of each plain import and the
single combined first-name string of each from-import.  (In general the
inventory follows the breadth-first walk order, not source order.) -/
theorem analyze_ast_imports_flat_module (parse : String → Except String Py)
    (code : String) (body : List Py)
    (hp : parse code = Except.ok (Py.Module body))
    (hleaf : ∀ n ∈ body, children n = []) :
    (analyze_ast parse code).toSummary.imports = body.flatMap importEntries
    ∧ (∀ ln ns, importEntries (Py.Import ln ns) = ns)
    ∧ (∀ ln X y rest, importEntries (Py.ImportFrom ln (some X) (y :: rest))
        = [X ++ "." ++ y]) := by
  refine ⟨?_, fun ln ns => rfl, fun ln X y rest => rfl⟩
  simp only [analyze_ast, hp, AstAnalysis.toSummary]
  have hw : (Py.Module body).walk = Py.Module body :: body := by
    simp only [Py.walk, walkQueue, children, List.nil_append]
    rw [walkQueue_childless body hleaf]
  rw [hw]
  simp [importEntries]

theorem analyze_ast_imports_flat_module_witness :
    (analyze_ast
        (fun _ => Except.ok (Py.Module [Py.Import 1 ["os", "sys"],
          Py.ImportFrom 2 (some ("x")) ["y", "z"]]))
        "import os, sys\nfrom x import y, z\n").toSummary.imports
      = ["os", "sys", "x.y"] := by
  have h := analyze_ast_imports_flat_module
    (fun _ => Except.ok (Py.Module [Py.Import 1 ["os", "sys"],
      Py.ImportFrom 2 (some ("x")) ["y", "z"]]))
    "import os, sys\nfrom x import y, z\n"
    [Py.Import 1 ["os", "sys"], Py.ImportFrom 2 (some ("x")) ["y", "z"]]
    rfl (by simp [children])
  rw [h.1]
  decide

/-- C10: a relative from-import with no module (`from . import Y`) is
recorded with the absent module rendered as the literal text `None`, the
way a Python f-string prints the `None` attribute: the entry is `None.Y`. -/
theorem analyze_ast_relative_import_renders_none (parse : String → Except String Py)
    (code : String) (tree : Py) (ln : Nat) (y : String) (rest : List String)
    (hp : parse code = Except.ok tree)
    (hm : Py.ImportFrom ln none (y :: rest) ∈ tree.walk) :
    ("None." ++ y) ∈ (analyze_ast parse code).toSummary.imports := by
  simp only [analyze_ast, hp, AstAnalysis.toSummary]
  exact List.mem_flatMap.mpr ⟨Py.ImportFrom ln none (y :: rest), hm,
    by simp [importEntries, pyOptStr]⟩

theorem analyze_ast_relative_import_renders_none_witness :
    ("None." ++ "Y") ∈ (analyze_ast
        (fun _ => Except.ok (Py.Module [Py.ImportFrom 1 none ["Y"]]))
        "from . import Y\n").toSummary.imports :=
  analyze_ast_relative_import_renders_none _ _ _ 1 "Y" [] rfl
    (by simp [Py.walk, walkQueue, children])

/-- The unified results dict built by `CodeAnalyzer.analyze_code`: the keys
`pylint`, `bandit`, `black`, `ast_analysis`. -/
structure AnalysisResults where
  pylint : List LintMsg
  bandit : List SecIssue
  black : BlackVerdict
  ast_analysis : AstAnalysis
deriving DecidableEq

/-- One lint suggestion line: the kind, the message and the line number,
with the literal frame the source builds with an f-string. -/
def pylintLine (m : LintMsg) : String :=
  "Pylint " ++ m.type.str ++ ": " ++ m.message ++ " (line " ++ toString m.line ++ ")"

/-- One security suggestion line: the severity, the issue text, the line
number and the confidence, with the literal frame the source builds with an
f-string. -/
def banditLine (i : SecIssue) : String :=
  "Security issue (" ++ i.severity.str ++ "): " ++ i.issue ++ " (line "
    ++ toString i.line ++ ", confidence: " ++ i.confidence.str ++ ")"

/-- Shallow embedding of `CodeAnalyzer.get_improvement_suggestions`: each
Python `for`-loop appending to `suggestions` is a fold carrying the
accumulated list, the membership tests are the source's `in`-list checks on
the tool's strings, and the structural block runs only when the analysis
dict has no `error` key. -/
def get_improvement_suggestions (r : AnalysisResults) : List String :=
  let s1 := r.pylint.foldl
    (fun acc m => if ["error", "warning"].contains m.type.str
      then acc ++ [pylintLine m] else acc) []
  let s2 := r.bandit.foldl
    (fun acc i => if ["HIGH", "MEDIUM"].contains i.severity.str
      then acc ++ [banditLine i] else acc) s1
  let s3 := if r.black.needs_formatting
    then s2 ++ ["Code formatting: Consider using Black to format your code"] else s2
  match r.ast_analysis with
  | .failure _ => s3
  | .success _ _ _ complexity =>
      let s4 := if complexity.functions > 10
        then s3 ++ ["Consider breaking down the code into smaller modules"] else s3
      if complexity.branches > 5
        then s4 ++ ["High cyclomatic complexity detected. Consider simplifying the logic"]
        else s4

/-- The suggestion rules exactly as the specification words them: four rule
groups applied in fixed order and concatenated — lint findings of kind
error/warning, security findings of severity HIGH/MEDIUM, one fixed
formatting advisory iff `needs_formatting`, and (only when `parse_error` is
absent) the two fixed structural advisories gated on the complexity
counters. -/
def derive_spec (r : AnalysisResults) : List String :=
  (r.pylint.filter
      (fun m => m.type == SeverityKind.error || m.type == SeverityKind.warning)).map pylintLine
  ++ (r.bandit.filter
      (fun i => i.severity == SecLevel.HIGH || i.severity == SecLevel.MEDIUM)).map banditLine
  ++ (if r.black.needs_formatting
      then ["Code formatting: Consider using Black to format your code"] else [])
  ++ (match r.ast_analysis with
      | .failure _ => []
      | .success _ _ _ complexity =>
          (if complexity.functions > 10
            then ["Consider breaking down the code into smaller modules"] else [])
          ++ (if complexity.branches > 5
            then ["High cyclomatic complexity detected. Consider simplifying the logic"]
            else []))

theorem foldl_append_filter {α : Type} (p : α → Bool) (f : α → String)
    (l : List α) (acc : List String) :
    l.foldl (fun a x => if p x then a ++ [f x] else a) acc
      = acc ++ (l.filter p).map f := by
  induction l generalizing acc with
  | nil => simp
  | cons x xs ih =>
      cases h : p x
      all_goals simp [List.foldl_cons, h, ih, List.filter_cons]

theorem lint_kind_filter_eq (k : SeverityKind) :
    (["error", "warning"].contains k.str)
      = (k == SeverityKind.error || k == SeverityKind.warning) := by
  cases k <;> decide

theorem sec_level_filter_eq (s : SecLevel) :
    (["HIGH", "MEDIUM"].contains s.str)
      = (s == SecLevel.HIGH || s == SecLevel.MEDIUM) := by
  cases s <;> decide

/-- C2: `get_improvement_suggestions` applies exactly the four rule groups
of the specification, in fixed order, concatenating their outputs: one
formatted string per error/warning lint finding (none for convention /
refactor / info), one per HIGH/MEDIUM security finding (none for LOW), the
fixed formatting advisory iff `needs_formatting`, and — only when
`parse_error` is absent — the two fixed structural advisories gated on
`function_count > 10` and `branch_count > 5`. -/
theorem get_improvement_suggestions_matches_spec (r : AnalysisResults) :
    get_improvement_suggestions r = derive_spec r := by
  obtain ⟨pl, bd, bl, astr⟩ := r
  simp only [get_improvement_suggestions, derive_spec]
  rw [foldl_append_filter, foldl_append_filter]
  have h1 : pl.filter (fun m => ["error", "warning"].contains m.type.str)
      = pl.filter (fun m => m.type == SeverityKind.error || m.type == SeverityKind.warning) :=
    List.filter_congr (fun m _ => lint_kind_filter_eq m.type)
  have h2 : bd.filter (fun i => ["HIGH", "MEDIUM"].contains i.severity.str)
      = bd.filter (fun i => i.severity == SecLevel.HIGH || i.severity == SecLevel.MEDIUM) :=
    List.filter_congr (fun i _ => sec_level_filter_eq i.severity)
  rw [h1, h2]
  cases astr
  case failure e =>
    by_cases hb : bl.needs_formatting
    all_goals simp [hb]
  case success i f c x =>
    by_cases hb : bl.needs_formatting
    all_goals by_cases h10 : x.functions > 10
    all_goals by_cases h5 : x.branches > 5
    all_goals simp [hb, h10, h5]

/-- Lines of the pylint report section: header plus one
`[TYPE] Line n: message` line per finding; nothing when the finding list is
empty (`if results.get("pylint"):` fails on an empty list). -/
def pylintSection (msgs : List LintMsg) : List String :=
  if msgs.isEmpty then []
  else "=== Pylint Analysis ===" ::
    msgs.map (fun m =>
      "[" ++ m.type.str.toUpper ++ "] Line " ++ toString m.line ++ ": " ++ m.message)

/-- Lines of the bandit report section; nothing when the issue list is
empty. -/
def banditSection (issues : List SecIssue) : List String :=
  if issues.isEmpty then []
  else "\n=== Security Analysis (Bandit) ===" ::
    issues.map (fun i =>
      "[" ++ i.severity.str ++ "] Line " ++ toString i.line ++ ": " ++ i.issue
        ++ " (Confidence: " ++ i.confidence.str ++ ")")

/-- Lines of the black report section.  The `black` entry of an
`analyze_code` result is always a non-empty dict, so the
`if results.get("black"):` guard always passes: the header always renders,
followed by the advisory line when `needs_formatting` and the error line
when `error` is set. -/
def blackSection (b : BlackVerdict) : List String :=
  "\n=== Code Formatting (Black) ===" ::
    ((if b.needs_formatting
        then ["Code needs formatting. Consider using Black to format the code."] else [])
      ++ (match b.error with
          | some e => ["Error during formatting check: " ++ e]
          | none => []))

/-- Lines of the structure report section: skipped entirely when the
analysis dict carries an `error` key; otherwise the four complexity lines
followed by the optional imports / functions / classes blocks. -/
def astSection (a : AstAnalysis) : List String :=
  match a with
  | .failure _ => []
  | .success imports functions classes complexity =>
      ["\n=== Code Structure Analysis ===",
        "Functions: " ++ toString complexity.functions,
        "Classes: " ++ toString complexity.classes,
        "Branches: " ++ toString complexity.branches,
        "Loops: " ++ toString complexity.loops]
      ++ (if imports.isEmpty then []
          else "\nImports:" :: imports.map (fun imp => "  - " ++ imp))
      ++ (if functions.isEmpty then []
          else "\nFunctions:" :: functions.map (fun fn =>
            "  - " ++ fn.name ++ "(" ++ String.intercalate (", ") fn.args ++ ")"))
      ++ (if classes.isEmpty then []
          else "\nClasses:" :: classes.flatMap (fun cls =>
            ("  - " ++ cls.name) :: cls.methods.map (fun mth => "    * " ++ mth)))

/-- Shallow embedding of `format_code_analysis_results` in
`src/utils/helpers.py`: the `output` list accumulated by the four guarded
blocks, joined with newlines. -/
def format_code_analysis_results (r : AnalysisResults) : String :=
  String.intercalate ("\n")
    (pylintSection r.pylint ++ banditSection r.bandit
      ++ blackSection r.black ++ astSection r.ast_analysis)

/-- C9: the report renders the four labeled sections in the fixed order
lint, security, formatting, structure; a section contributes nothing only
when its input collection is empty or absent (lint/security: empty finding
list; structure: parse failure; the formatting dict of an analysis result
is never empty, so its section always renders).  The formatter is a pure
function of the result document, so calling it twice on the same document
yields identical output. -/
theorem format_code_analysis_results_sections (r : AnalysisResults) :
    format_code_analysis_results r
      = String.intercalate ("\n") (pylintSection r.pylint ++ banditSection r.bandit
          ++ blackSection r.black ++ astSection r.ast_analysis)
    ∧ (pylintSection r.pylint = [] ↔ r.pylint = [])
    ∧ (banditSection r.bandit = [] ↔ r.bandit = [])
    ∧ blackSection r.black ≠ []
    ∧ (astSection r.ast_analysis = [] ↔ r.ast_analysis.toSummary.parse_error.isSome)
    ∧ format_code_analysis_results r = format_code_analysis_results r := by
  refine ⟨rfl, ?_, ?_, ?_, ?_, rfl⟩
  · cases hp : r.pylint
    all_goals simp [pylintSection]
  · cases hb : r.bandit
    all_goals simp [banditSection]
  · simp [blackSection]
  · cases ha : r.ast_analysis
    all_goals simp [astSection, AstAnalysis.toSummary]

/-- State of the external `BanditManager` as far as `_run_bandit` touches
it: the list of files to scan, the name-to-source data map, and the issues
collected by the last test run.  The manager's methods are modelled
abstractly from the tool's documented behaviour: `discover_files` records
the names to scan; `run_tests` scans, at call time, the current content of
every recorded name (resolved through `read`: the filesystem for a real
path, standard input for `-`) with the scanner oracle `scan`;
`get_issue_list` returns the collected issues. -/
structure BanditManager where
  files_list : List String
  files_data : List (String × String)
  results : List SecIssue
deriving DecidableEq

/-- A freshly constructed manager: nothing discovered, nothing scanned. -/
def BanditManager.new : BanditManager := ⟨[], [], []⟩

/-- Record the names the next test run will scan. -/
def BanditManager.discover_files (m : BanditManager) (names : List String) : BanditManager :=
  { m with files_list := names }

/-- Scan the current content of every discovered name. -/
def BanditManager.run_tests (m : BanditManager) (scan : String → List SecIssue)
    (read : String → String) : BanditManager :=
  { m with results := m.files_list.flatMap (fun n => scan (read n)) }

/-- The issues collected by the last test run. -/
def BanditManager.get_issue_list (m : BanditManager) : List SecIssue := m.results

/-- Embedding of `CodeAnalyzer._run_bandit` with a file path: the source text is written
to the path, the manager discovers that file, and the tests run against the
filesystem as just written. -/
def run_bandit_file (scan : String → List SecIssue) (fs : String → String)
    (code : String) (file_path : String) : List SecIssue :=
  let fs2 := fun p => if p = file_path then code else fs p
  let m := BanditManager.new
  let m := m.discover_files [file_path]
  let m := m.run_tests scan fs2
  m.get_issue_list

/-- Embedding of `CodeAnalyzer._run_bandit` with no path (in-memory mode), line by line:
the manager discovers the pseudo-file `-`, runs the tests — which therefore
scan standard input, `files_data` not having been set yet — and only after
`run_tests` are `files_list` and `files_data` overwritten with the virtual
file holding `code`. -/
def run_bandit_memory (scan : String → List SecIssue) (stdin : String)
    (code : String) : List SecIssue :=
  let read := fun n => if n = "-" then stdin else ""
  let m := BanditManager.new
  let m := m.discover_files ["-"]
  let m := m.run_tests scan read
  let m := { m with files_list := ["-"], files_data := [("-", code)] }
  m.get_issue_list

/-- The finding bandit reports for `import pickle`. -/
def pickleIssue : SecIssue :=
  ⟨"Consider possible security implications associated with pickle module.",
    SecLevel.LOW, SecLevel.HIGH, 1, 0⟩

/-- A scanner that flags exactly the source `import pickle`. -/
def pickleScan : String → List SecIssue :=
  fun s => if s = "import pickle\n" then [pickleIssue] else []

/-- C6 (refuted): the two `_run_bandit` modes do not run an equivalent
scan.  The path mode scans the materialized source text, but the in-memory
mode assigns the virtual file's content only after `run_tests` has already
run, so its scan sees standard input and never the source text: for a
source the scanner flags, the path mode reports the finding and the
in-memory mode reports nothing.  In general the path mode's result is
`scan code` while the in-memory mode's result is `scan stdin`, independent
of `code`. -/
theorem run_bandit_modes_disagree :
    run_bandit_file pickleScan (fun _ => "") "import pickle\n" "/tmp/code.py"
      = [pickleIssue]
    ∧ run_bandit_memory pickleScan ("") ("import pickle\n") = []
    ∧ (∀ scan fs code p, run_bandit_file scan fs code p = scan code)
    ∧ (∀ scan stdin code, run_bandit_memory scan stdin code = scan stdin) := by
  refine ⟨?_, ?_, ?_, ?_⟩
  · decide
  · decide
  · intro scan fs code p
    simp [run_bandit_file, BanditManager.new, BanditManager.discover_files,
      BanditManager.run_tests, BanditManager.get_issue_list]
  · intro scan stdin code
    simp [run_bandit_memory, BanditManager.new, BanditManager.discover_files,
      BanditManager.run_tests, BanditManager.get_issue_list]

/-- The only field state of `CodeAnalyzer`: the `JSONReporter` constructed
once in `__init__` and handed to every pylint run.  The reporter's
`messages` list is appended to by each run and never cleared. -/
structure CodeAnalyzer where
  pylint_reporter : List LintMsg
deriving DecidableEq

/-- A freshly constructed analyzer: the reporter holds no messages. -/
def CodeAnalyzer.init : CodeAnalyzer := ⟨[]⟩

/-- Shallow embedding of `CodeAnalyzer._run_pylint` in its file-path mode:
the code is written to the path, `pylint.lint.Run` appends the diagnostics
for the written text (the oracle `lint` applied to it) to the shared
reporter's messages, and the method returns `self.pylint_reporter.messages`
— the whole accumulated list, not only this run's messages. -/
def run_pylint (lint : String → List LintMsg) (st : CodeAnalyzer)
    (code : String) : List LintMsg × CodeAnalyzer :=
  let st2 : CodeAnalyzer := ⟨st.pylint_reporter ++ lint code⟩
  (st2.pylint_reporter, st2)

/-- Shallow embedding of `CodeAnalyzer.analyze_code` (file-path mode, every
tool invocation succeeding): the results dict of the four sub-analyses,
threading the analyzer's reporter state. -/
def analyze_code (lint : String → List LintMsg) (scan : String → List SecIssue)
    (fs : String → String) (file_path : String)
    (fmt : String → Except String String) (parse : String → Except String Py)
    (st : CodeAnalyzer) (code : String) : AnalysisResults × CodeAnalyzer :=
  let p := run_pylint lint st code
  ({ pylint := p.1,
     bandit := run_bandit_file scan fs code file_path,
     black := run_black fmt code,
     ast_analysis := analyze_ast parse code }, p.2)

/-- A lint oracle reporting one fixed warning for every source. -/
def demoLintMsg : LintMsg := ⟨SeverityKind.warning, "Unused variable x", 1⟩

/-- See `demoLintMsg`. -/
def demoLint : String → List LintMsg := fun _ => [demoLintMsg]

/-- A security oracle reporting nothing. -/
def demoScan : String → List SecIssue := fun _ => []

/-- An empty filesystem. -/
def demoFs : String → String := fun _ => ""

/-- A formatter that returns every source unchanged. -/
def demoFmt : String → Except String String := fun s => Except.ok s

/-- A parser mapping every source to the empty module. -/
def demoParse : String → Except String Py := fun _ => Except.ok (Py.Module [])

/-- C7 (counterexample): the lint adapter is not stateless per call.  Two
sequential `analyze_code` invocations with the same request on the same
analyzer do not return identical lint sequences: the reporter is a field
constructed once, so the second call returns the first call's findings
followed by the fresh run's findings. -/
theorem analyze_code_repeat_lint_leaks :
    ¬ ((analyze_code demoLint demoScan demoFs ("/tmp/code.py") demoFmt demoParse
          CodeAnalyzer.init ("x = 1\n")).1.pylint
        = (analyze_code demoLint demoScan demoFs ("/tmp/code.py") demoFmt demoParse
            (analyze_code demoLint demoScan demoFs ("/tmp/code.py") demoFmt demoParse
              CodeAnalyzer.init ("x = 1\n")).2 "x = 1\n").1.pylint) := by
  decide

/-- C7 (amended): the second of two sequential `analyze_code` calls with
the same request returns, as its lint sequence, the first call's lint
sequence followed by the fresh run's messages — cross-call leakage through
the reused reporter field; the two calls agree exactly when the lint run
reports nothing. -/
theorem analyze_code_repeat_lint_accumulates (lint : String → List LintMsg)
    (scan : String → List SecIssue) (fs : String → String) (file_path : String)
    (fmt : String → Except String String) (parse : String → Except String Py)
    (st : CodeAnalyzer) (code : String) :
    (analyze_code lint scan fs file_path fmt parse
        (analyze_code lint scan fs file_path fmt parse st code).2 code).1.pylint
      = (analyze_code lint scan fs file_path fmt parse st code).1.pylint ++ lint code
    ∧ ((analyze_code lint scan fs file_path fmt parse
          (analyze_code lint scan fs file_path fmt parse st code).2 code).1.pylint
        = (analyze_code lint scan fs file_path fmt parse st code).1.pylint
      ↔ lint code = []) := by
  constructor
  · simp [analyze_code, run_pylint]
  · simp [analyze_code, run_pylint]

/-- Shallow embedding of `CodeAnalyzer._run_pylint` when the pylint
invocation itself may raise: `.error` aborts the method, `.ok msgs`
appends to the shared reporter as in `run_pylint`. -/
def run_pylintE (lint : String → Except String (List LintMsg)) (st : CodeAnalyzer)
    (code : String) : Except String (List LintMsg × CodeAnalyzer) :=
  match lint code with
  | .ok msgs => .ok (st.pylint_reporter ++ msgs, ⟨st.pylint_reporter ++ msgs⟩)
  | .error e => .error e

/-- Shallow embedding of `CodeAnalyzer.analyze_code` with fallible tool
invocations.  The results dict evaluates its values in order — pylint,
bandit, black, ast — and the method body contains no `try`/`except`, so an
exception raised by the lint or security invocation propagates to the
caller; only `_run_black` (which catches every exception) and
`_analyze_ast` (which catches `SyntaxError`) absorb their own failures. -/
def analyze_codeE (lint : String → Except String (List LintMsg))
    (sec : String → Except String (List SecIssue))
    (fmt : String → Except String String) (parse : String → Except String Py)
    (st : CodeAnalyzer) (code : String) :
    Except String (AnalysisResults × CodeAnalyzer) :=
  match run_pylintE lint st code with
  | .error e => .error e
  | .ok (p, st2) =>
      match sec code with
      | .error e => .error e
      | .ok b =>
          .ok ({ pylint := p, bandit := b, black := run_black fmt code,
                 ast_analysis := analyze_ast parse code }, st2)

/-- C1 (refuted by the code): `analyze_code` does not catch sub-analysis
failures — its body has no `try`/`except`, so an exception raised by the
lint or the security invocation propagates to the caller instead of being
encoded into that sub-analysis's error field. -/
theorem analyze_code_propagates_tool_failure :
    analyze_codeE (fun _ => Except.error ("pylint invocation failed"))
      (fun _ => Except.ok []) (fun s => Except.ok s)
      (fun _ => Except.ok (Py.Module [])) CodeAnalyzer.init ("x = 1\n")
      = Except.error ("pylint invocation failed")
    ∧ analyze_codeE (fun _ => Except.ok [])
      (fun _ => Except.error ("bandit invocation failed")) (fun s => Except.ok s)
      (fun _ => Except.ok (Py.Module [])) CodeAnalyzer.init ("x = 1\n")
      = Except.error ("bandit invocation failed") :=
  ⟨rfl, rfl⟩

end RagCode
